import Mathlib

/-!
# Verification of the Realm coordination layer (nalu-wind, `include/Realm.h`)

Shallow embedding of the distributed coordination subsystems declared in
`Realm.h`: the HYPRE global row-ID allocator, the periodic image
synchronizer, the overset field exchanger, the multi-realm transfer router,
the mesh-info cache accessor, and boundary-condition registration.

Only two of the relevant routines have inline bodies in the header
(`Realm::mesh_info` and `Realm::register_abltop_bc`); those are embedded
directly from the source.  The remaining routines are only declared in the
header, so their behaviour is modelled from the specification, as marked on
each definition.
-/

namespace NaluWind

/-! ## Global Row-ID Allocator (`Realm::set_hypre_global_id`,
`hypreILower_`, `hypreIUpper_`, `hypreGlobalId_`) -/

/-- Modelled from the spec: the body of `Realm::set_hypre_global_id` is not in
the header.  Per the spec, each rank's lower bound in the global HYPRE row
space is the exclusive prefix sum (across ranks ordered by rank) of the
per-rank locally-owned entity counts, multiplied by the per-entity
degree-of-freedom count.  `counts` lists the owned-entity count of each rank;
`rankLower counts ndof p` is rank `p`'s `hypreILower_`. -/
def rankLower (counts : List Nat) (ndof : Nat) (p : Nat) : Nat :=
  ndof * (counts.take p).sum

/-- Modelled from the spec: rank `p`'s exclusive upper bound `hypreIUpper_`
(one past its last row), i.e. the prefix sum including rank `p`'s own
ndof-scaled count. -/
def rankUpper (counts : List Nat) (ndof : Nat) (p : Nat) : Nat :=
  ndof * (counts.take (p + 1)).sum

/-- Modelled from the spec: the fixed intra-entity offset rule — DOF `k` of
the entity with base global id `g` receives row id `g * ndof + k`. -/
def dofRowId (g : Nat) (ndof : Nat) (k : Nat) : Nat :=
  g * ndof + k

/-- A reference to a mesh entity as seen by the allocator: the rank owning it
and its position in the owner's fixed deterministic local order. -/
structure EntityRef where
  owner : Nat
  localIdx : Nat
deriving DecidableEq

/-- Modelled from the spec: the base global id the owning rank assigns to one
of its locally-owned entities: the rank's offset in the unscaled entity
numbering plus the entity's local index. -/
def ownedGlobalId (counts : List Nat) (e : EntityRef) : Nat :=
  (counts.take e.owner).sum + e.localIdx

/-- Modelled from the spec: the global id of entity `e` as seen by rank
`viewer`.  A rank self-assigns ids for entities it owns; for a shared
(ghosted) entity it obtains the id by querying the owning rank rather than
self-assigning, so both branches resolve to the owner's assignment. -/
def globalIdView (counts : List Nat) (viewer : Nat) (e : EntityRef) : Nat :=
  if viewer = e.owner then
    ownedGlobalId counts e
  else
    ownedGlobalId counts e

/-! ## Periodic Image Synchronizer (`Realm::periodic_field_update`,
`Realm::periodic_field_max`) -/

/-- One periodic master/slave node relation. -/
structure PeriodicPair where
  master : Nat
  slave : Nat
deriving DecidableEq

/-- Modelled from the spec: the *assign* policy of
`Realm::periodic_field_update` — for every periodic pair the slave node takes
the master's value; all other nodes keep theirs.  A field is a map from node
id to a rational value (one component shown; components are independent). -/
def periodic_field_update (pairs : List PeriodicPair) (f : Nat → ℚ) :
    Nat → ℚ :=
  fun n =>
    match pairs.find? (fun q => q.slave == n) with
    | some q => f q.master
    | none => f n

/-- Modelled from the spec: the *max* policy
(`Realm::periodic_field_max` / `periodic_max_field_update`) — slave and
master of a pair both take the max of their two values. -/
def periodic_field_max (pairs : List PeriodicPair) (f : Nat → ℚ) :
    Nat → ℚ :=
  fun n =>
    match pairs.find? (fun q => q.slave == n) with
    | some q => max (f q.master) (f n)
    | none =>
      match pairs.find? (fun q => q.master == n) with
      | some q => max (f n) (f q.slave)
      | none => f n

/-- Modelled from the spec: `Realm::periodic_field_update` with its field
check made explicit.  When `bypassFieldCheck` is not set and the field is not
registered identically on both sides of the pair set, the update is a fatal
error at first use; otherwise the assign update runs. -/
def periodic_field_update_impl (registeredIdentically : Bool)
    (bypassFieldCheck : Bool) (pairs : List PeriodicPair) (f : Nat → ℚ) :
    Except String (Nat → ℚ) :=
  if !bypassFieldCheck && !registeredIdentically then
    Except.error "periodic field not registered identically on both sides"
  else
    Except.ok (periodic_field_update pairs f)

/-- `Realm::periodic_field_update` called without an explicit
`bypassFieldCheck` argument: the header declares the default argument
`bypassFieldCheck = true` (Realm.h:240), so the default call takes the
bypass path. -/
def periodic_field_update_default (registeredIdentically : Bool)
    (pairs : List PeriodicPair) (f : Nat → ℚ) : Except String (Nat → ℚ) :=
  periodic_field_update_impl registeredIdentically true pairs f

/-! ## Concrete scenario checks -/

/-- C2: For P=3 processes owning 10, 7, 5 entities with ndof=2, the exclusive
prefix-sum row-ID allocation assigns process 0 the range [0,20), process 1
the range [20,34), process 2 the range [34,44); and every DOF of every
entity based in a process's unscaled range lands in that process's row
range under the rule `dofRowId g ndof k = g*ndof + k`. -/
theorem rowid_scenario_p3 :
    (rankLower [10, 7, 5] 2 0 = 0 ∧ rankUpper [10, 7, 5] 2 0 = 20) ∧
    (rankLower [10, 7, 5] 2 1 = 20 ∧ rankUpper [10, 7, 5] 2 1 = 34) ∧
    (rankLower [10, 7, 5] 2 2 = 34 ∧ rankUpper [10, 7, 5] 2 2 = 44) ∧
    (∀ g, g < 10 → ∀ k, k < 2 →
      0 ≤ dofRowId g 2 k ∧ dofRowId g 2 k < 20) ∧
    (∀ g, 10 ≤ g → g < 17 → ∀ k, k < 2 →
      20 ≤ dofRowId g 2 k ∧ dofRowId g 2 k < 34) ∧
    (∀ g, 17 ≤ g → g < 22 → ∀ k, k < 2 →
      34 ≤ dofRowId g 2 k ∧ dofRowId g 2 k < 44) := by
  refine ⟨by decide, by decide, by decide, ?_, ?_, ?_⟩
  · intro g hg k hk
    constructor
    · exact Nat.zero_le _
    · calc dofRowId g 2 k = g * 2 + k := rfl
        _ < 20 := by omega
  · intro g hg1 hg2 k hk
    constructor
    · calc (20 : Nat) ≤ g * 2 := by omega
        _ ≤ dofRowId g 2 k := Nat.le_add_right _ _
    · calc dofRowId g 2 k = g * 2 + k := rfl
        _ < 34 := by omega
  · intro g hg1 hg2 k hk
    constructor
    · calc (34 : Nat) ≤ g * 2 := by omega
        _ ≤ dofRowId g 2 k := Nat.le_add_right _ _
    · calc dofRowId g 2 k = g * 2 + k := rfl
        _ < 44 := by omega

/-- Witness for C2: DOF 1 of the entity with base global id 12 (owned by
process 1) lands in process 1's row range [20,34). -/
theorem rowid_scenario_p3_witness :
    20 ≤ dofRowId 12 2 1 ∧ dofRowId 12 2 1 < 34 :=
  rowid_scenario_p3.2.2.2.2.1 12 (by decide) (by decide) 1 (by decide)

/-! ## Row-ID allocator: coverage, contiguity, shared-entity agreement -/

theorem sum_take_le_succ (l : List Nat) (p : Nat) :
    (l.take p).sum ≤ (l.take (p + 1)).sum := by
  induction l generalizing p with
  | nil => simp
  | cons a t ih =>
    cases p with
    | zero => simp
    | succ q =>
      simp only [List.take_succ_cons, List.sum_cons]
      exact Nat.add_le_add_left (ih q) a

theorem sum_take_mono (l : List Nat) {p q : Nat} (h : p ≤ q) :
    (l.take p).sum ≤ (l.take q).sum := by
  induction q with
  | zero =>
    cases Nat.le_zero.mp h
    exact Nat.le_refl _
  | succ q ih =>
    rcases Nat.lt_or_ge p (q + 1) with hlt | hge
    · exact Nat.le_trans (ih (Nat.lt_succ_iff.mp hlt)) (sum_take_le_succ l q)
    · cases Nat.le_antisymm h hge
      exact Nat.le_refl _

theorem rankLower_mono (counts : List Nat) (ndof : Nat) {p q : Nat}
    (h : p ≤ q) : rankLower counts ndof p ≤ rankLower counts ndof q :=
  Nat.mul_le_mul_left ndof (sum_take_mono counts h)

theorem rankLower_cons (c : Nat) (t : List Nat) (ndof p : Nat) :
    rankLower (c :: t) ndof (p + 1) = ndof * c + rankLower t ndof p := by
  simp [rankLower, List.take_succ_cons, Nat.mul_add]

theorem rankUpper_cons (c : Nat) (t : List Nat) (ndof p : Nat) :
    rankUpper (c :: t) ndof (p + 1) = ndof * c + rankUpper t ndof p :=
  rankLower_cons c t ndof (p + 1)

theorem exists_covering_rank (counts : List Nat) (ndof : Nat) :
    ∀ i, i < ndof * counts.sum →
      ∃ p, p < counts.length ∧
        rankLower counts ndof p ≤ i ∧ i < rankUpper counts ndof p := by
  induction counts with
  | nil => intro i hi; simp at hi
  | cons c t ih =>
    intro i hi
    rcases Nat.lt_or_ge i (ndof * c) with hlt | hge
    · refine ⟨0, Nat.succ_pos _, ?_, ?_⟩
      · simp [rankLower]
      · simpa [rankUpper] using hlt
    · have hj : i - ndof * c < ndof * t.sum := by
        have := hi
        simp only [List.sum_cons, Nat.mul_add] at this
        omega
      obtain ⟨p, hp, hl, hu⟩ := ih (i - ndof * c) hj
      refine ⟨p + 1, by simpa using Nat.succ_lt_succ hp, ?_, ?_⟩
      · rw [rankLower_cons]; omega
      · rw [rankUpper_cons]; omega

theorem covering_rank_unique (counts : List Nat) (ndof i : Nat)
    {p q : Nat}
    (hp : rankLower counts ndof p ≤ i ∧ i < rankUpper counts ndof p)
    (hq : rankLower counts ndof q ≤ i ∧ i < rankUpper counts ndof q) :
    p = q := by
  rcases Nat.lt_trichotomy p q with hlt | heq | hgt
  · exfalso
    have h1 : rankUpper counts ndof p ≤ rankLower counts ndof q :=
      rankLower_mono counts ndof hlt
    omega
  · exact heq
  · exfalso
    have h1 : rankUpper counts ndof q ≤ rankLower counts ndof p :=
      rankLower_mono counts ndof hgt
    omega

/-- C1: the row-ID allocator is contiguous and covering: every consecutive
pair of ranks satisfies `rankUpper p = rankLower (p+1)`; every global row
index `i < ndof * N` lies in exactly one rank's `[rankLower, rankUpper)`
range; and a shared (ghosted) entity resolves to the same global id on every
rank that views it, because ghost views query the owner. -/
theorem hypre_rowid_allocation_correct (counts : List Nat) (ndof : Nat) :
    (∀ p, rankUpper counts ndof p = rankLower counts ndof (p + 1)) ∧
    (∀ i, i < ndof * counts.sum →
      ∃! p, p < counts.length ∧
        rankLower counts ndof p ≤ i ∧ i < rankUpper counts ndof p) ∧
    (∀ (e : EntityRef) (r r' : Nat),
      globalIdView counts r e = globalIdView counts r' e) := by
  refine ⟨fun p => rfl, ?_, ?_⟩
  · intro i hi
    obtain ⟨p, hp, hl, hu⟩ := exists_covering_rank counts ndof i hi
    exact ⟨p, ⟨hp, hl, hu⟩, fun q hq =>
      covering_rank_unique counts ndof i ⟨hq.2.1, hq.2.2⟩ ⟨hl, hu⟩⟩
  · intro e r r'
    unfold globalIdView
    by_cases h1 : r = e.owner <;> by_cases h2 : r' = e.owner <;> simp [h1, h2]

/-- Witness for C1 at a concrete partition: with counts `[10,7,5]` and
`ndof = 2`, row index 25 lies in exactly one rank's range. -/
theorem hypre_rowid_allocation_correct_witness :
    ∃! p, p < ([10, 7, 5] : List Nat).length ∧
      rankLower [10, 7, 5] 2 p ≤ 25 ∧ 25 < rankUpper [10, 7, 5] 2 p :=
  (hypre_rowid_allocation_correct [10, 7, 5] 2).2.1 25 (by decide)

/-- C9: a rank owning zero linear-system entities is a valid allocator input:
its range is empty (`rankLower p = rankUpper p`), the allocation is total
(no failure), and global contiguity of all ranks' ranges is preserved. -/
theorem hypre_rowid_zero_count_rank (counts : List Nat) (ndof p : Nat)
    (hp : p < counts.length) (hzero : counts[p] = 0) :
    rankLower counts ndof p = rankUpper counts ndof p ∧
    (∀ q, rankUpper counts ndof q = rankLower counts ndof (q + 1)) := by
  constructor
  · unfold rankLower rankUpper
    rw [List.sum_take_succ counts p hp, hzero, Nat.add_zero]
  · intro q
    rfl

/-- Witness for C9: with counts `[3,0,5]`, rank 1 owns zero entities, gets an
empty range, and contiguity holds. -/
theorem hypre_rowid_zero_count_rank_witness :
    rankLower [3, 0, 5] 2 1 = rankUpper [3, 0, 5] 2 1 ∧
    (∀ q, rankUpper [3, 0, 5] 2 q = rankLower [3, 0, 5] 2 (q + 1)) :=
  hypre_rowid_zero_count_rank [3, 0, 5] 2 1 (by decide) (by decide)

/-! ## Periodic synchronizer: assign idempotence, max commutativity and
monotonicity, field-check behaviour -/

theorem periodic_field_update_of_find (pairs : List PeriodicPair)
    (f : Nat → ℚ) (n : Nat) (q : PeriodicPair)
    (h : pairs.find? (fun q => q.slave == n) = some q) :
    periodic_field_update pairs f n = f q.master := by
  unfold periodic_field_update
  rw [h]

theorem periodic_field_update_of_none (pairs : List PeriodicPair)
    (f : Nat → ℚ) (n : Nat)
    (h : pairs.find? (fun q => q.slave == n) = none) :
    periodic_field_update pairs f n = f n := by
  unfold periodic_field_update
  rw [h]

/-- C3: the *assign* policy is idempotent.  The hypothesis is the data-model
invariant that chained periodicity has been pre-resolved at registration
time, so no master node is itself a slave; under it, applying
`periodic_field_update` twice yields the same values as applying it once. -/
theorem periodic_assign_idempotent (pairs : List PeriodicPair)
    (hres : ∀ q ∈ pairs, q.master ∉ pairs.map PeriodicPair.slave)
    (f : Nat → ℚ) (n : Nat) :
    periodic_field_update pairs (periodic_field_update pairs f) n =
      periodic_field_update pairs f n := by
  cases hfind : pairs.find? (fun q => q.slave == n) with
  | none =>
    rw [periodic_field_update_of_none pairs _ n hfind]
  | some q =>
    have hqmem : q ∈ pairs := List.mem_of_find?_eq_some hfind
    rw [periodic_field_update_of_find pairs _ n q hfind,
      periodic_field_update_of_find pairs f n q hfind]
    cases hfind2 : pairs.find? (fun r => r.slave == q.master) with
    | none => exact periodic_field_update_of_none pairs f q.master hfind2
    | some r =>
      exfalso
      have hrmem : r ∈ pairs := List.mem_of_find?_eq_some hfind2
      have hpred := List.find?_some hfind2
      have hsl : r.slave = q.master := by simpa using hpred
      exact hres q hqmem (List.mem_map.mpr ⟨r, hrmem, hsl⟩)

/-- Witness for C3: one cross-node pair (master 1, slave 3); applying the
assign synchronization twice agrees with applying it once at the slave. -/
theorem periodic_assign_idempotent_witness :
    periodic_field_update [⟨1, 3⟩]
        (periodic_field_update [⟨1, 3⟩] (fun n => (n : ℚ))) 3 =
      periodic_field_update [⟨1, 3⟩] (fun n => (n : ℚ)) 3 :=
  periodic_assign_idempotent [⟨1, 3⟩] (by decide) (fun n => (n : ℚ)) 3

/-- C4: the *max* policy is monotone — the resulting slave value dominates
both the slave's and the master's input values — and commutative in the
master and slave input values: exchanging the two input values leaves the
resulting slave value unchanged. -/
theorem periodic_max_comm_monotone (pairs : List PeriodicPair)
    (f g : Nat → ℚ) (pr : PeriodicPair)
    (hfind : pairs.find? (fun q => q.slave == pr.slave) = some pr) :
    (f pr.slave ≤ periodic_field_max pairs f pr.slave ∧
      f pr.master ≤ periodic_field_max pairs f pr.slave) ∧
    (f pr.master = g pr.slave → f pr.slave = g pr.master →
      periodic_field_max pairs f pr.slave =
        periodic_field_max pairs g pr.slave) := by
  have hval : ∀ h : Nat → ℚ,
      periodic_field_max pairs h pr.slave =
        max (h pr.master) (h pr.slave) := by
    intro h
    unfold periodic_field_max
    rw [hfind]
  constructor
  · rw [hval]
    exact ⟨le_max_right _ _, le_max_left _ _⟩
  · intro h1 h2
    rw [hval, hval, h1, h2, max_comm]

/-- Witness for C4: pair (master 1, slave 3) with input field `n ↦ n` and the
value-swapped field `n ↦ 4 - n`. -/
theorem periodic_max_comm_monotone_witness :
    (((fun n => (n : ℚ)) 3 ≤
        periodic_field_max [⟨1, 3⟩] (fun n => (n : ℚ)) 3 ∧
      (fun n => (n : ℚ)) 1 ≤
        periodic_field_max [⟨1, 3⟩] (fun n => (n : ℚ)) 3) ∧
     ((fun n => (n : ℚ)) 1 = (fun n => (4 : ℚ) - (n : ℚ)) 3 →
      (fun n => (n : ℚ)) 3 = (fun n => (4 : ℚ) - (n : ℚ)) 1 →
      periodic_field_max [⟨1, 3⟩] (fun n => (n : ℚ)) 3 =
        periodic_field_max [⟨1, 3⟩] (fun n => (4 : ℚ) - (n : ℚ)) 3)) :=
  periodic_max_comm_monotone [⟨1, 3⟩] (fun n => (n : ℚ))
    (fun n => (4 : ℚ) - (n : ℚ)) ⟨1, 3⟩ rfl

/-- C8: when the bypass-field-check option is not set, a field that is not
registered identically on both sides of the pair set is a fatal error at
first use; when the bypass option is set the validation is skipped; and the
default call path of `periodic_field_update` (header default argument
`bypassFieldCheck = true`, Realm.h:240) is the bypass path. -/
theorem periodic_field_check_behavior (registeredIdentically : Bool)
    (pairs : List PeriodicPair) (f : Nat → ℚ) :
    (registeredIdentically = false →
      periodic_field_update_impl registeredIdentically false pairs f =
        Except.error
          "periodic field not registered identically on both sides") ∧
    (registeredIdentically = true →
      periodic_field_update_impl registeredIdentically false pairs f =
        Except.ok (periodic_field_update pairs f)) ∧
    (periodic_field_update_impl registeredIdentically true pairs f =
      Except.ok (periodic_field_update pairs f)) ∧
    (periodic_field_update_default registeredIdentically pairs f =
      periodic_field_update_impl registeredIdentically true pairs f) := by
  refine ⟨?_, ?_, ?_, rfl⟩
  · intro h; subst h; rfl
  · intro h; subst h; rfl
  · cases registeredIdentically <;> rfl

/-- Witness for C8 at a concrete configuration: an unregistered field with
the check enabled errors; with the bypass (the header default) it runs. -/
theorem periodic_field_check_behavior_witness :
    ((false = false →
      periodic_field_update_impl false false [⟨1, 3⟩] (fun n => (n : ℚ)) =
        Except.error
          "periodic field not registered identically on both sides") ∧
    (false = true →
      periodic_field_update_impl false false [⟨1, 3⟩] (fun n => (n : ℚ)) =
        Except.ok (periodic_field_update [⟨1, 3⟩] (fun n => (n : ℚ)))) ∧
    (periodic_field_update_impl false true [⟨1, 3⟩] (fun n => (n : ℚ)) =
      Except.ok (periodic_field_update [⟨1, 3⟩] (fun n => (n : ℚ)))) ∧
    (periodic_field_update_default false [⟨1, 3⟩] (fun n => (n : ℚ)) =
      periodic_field_update_impl false true [⟨1, 3⟩] (fun n => (n : ℚ)))) :=
  periodic_field_check_behavior false [⟨1, 3⟩] (fun n => (n : ℚ))

/-! ## Overset Field Exchanger (`Realm::overset_field_update`) -/

/-- One donor→receptor overset relation: the receptor node and its donor
nodes with interpolation weights, fixed at registration time. -/
structure OversetRelation where
  receptor : Nat
  donors : List (Nat × ℚ)

/-- Modelled from the spec: the body of `Realm::overset_field_update` is not
in the header.  Per the spec, for each receptor node and each field component
(a row-major field with `nRows * nCols` components) the receptor value is the
weighted sum of the donor values with the precomputed interpolation weights.
`doFinalSyncToDevice` only controls a device/host copy of the result and does
not affect the computed values. -/
def overset_field_update (rels : List OversetRelation)
    (f : Nat → Nat → ℚ) (nRows nCols : Nat)
    (doFinalSyncToDevice : Bool) : Nat → Nat → ℚ :=
  fun n c =>
    if c < nRows * nCols then
      match rels.find? (fun r => r.receptor == n) with
      | some r => (r.donors.map (fun dw => dw.2 * f dw.1 c)).sum
      | none => f n c
    else f n c

/-- C5: when a receptor's interpolation weight vector is one-hot (a single
donor with weight exactly 1), overset exchange assigns the receptor exactly
the donor's field value, for every row/column shape and every component. -/
theorem overset_one_hot_exact (rels : List OversetRelation)
    (f : Nat → Nat → ℚ) (r : OversetRelation) (d : Nat)
    (hfind : rels.find? (fun s => s.receptor == r.receptor) = some r)
    (hhot : r.donors = [(d, 1)]) :
    ∀ nRows nCols c, c < nRows * nCols → ∀ b,
      overset_field_update rels f nRows nCols b r.receptor c = f d c := by
  intro nRows nCols c hc b
  simp [overset_field_update, hfind, hhot, hc]

/-- Witness for C5: one receptor (node 7) with the one-hot donor list
`[(2, 1)]` reproduces the donor's value at component 4 of a 3×2 field. -/
theorem overset_one_hot_exact_witness :
    overset_field_update [⟨7, [(2, 1)]⟩] (fun n c => (n : ℚ) + c)
        3 2 true 7 4 =
      (fun n c => (n : ℚ) + c) 2 4 :=
  overset_one_hot_exact [⟨7, [(2, 1)]⟩] (fun n c => (n : ℚ) + c)
    ⟨7, [(2, 1)]⟩ 2 rfl rfl 3 2 4 (by decide) true

/-! ## Multi-Realm Transfer Router (`Realm::process_initialization_transfer`,
`process_multi_physics_transfer`, `process_external_data_transfer`,
`post_converged_work`) -/

/-- Execution counters for the four transfer purposes of a realm. -/
structure TransferState where
  initializationCount : Nat
  multiPhysicsCount : Nat
  ioCount : Nat
  externalCount : Nat
deriving DecidableEq

/-- The state before any transfer has executed. -/
def initialTransferState : TransferState := ⟨0, 0, 0, 0⟩

/-- Modelled from the spec: `Realm::process_initialization_transfer` runs all
transfer edges tagged `initialization`; modelled as one execution tick. -/
def process_initialization_transfer (s : TransferState) : TransferState :=
  { s with initializationCount := s.initializationCount + 1 }

/-- Modelled from the spec: `Realm::process_multi_physics_transfer` runs all
transfer edges tagged `multiPhysics`; modelled as one execution tick. -/
def process_multi_physics_transfer (s : TransferState) : TransferState :=
  { s with multiPhysicsCount := s.multiPhysicsCount + 1 }

/-- Modelled from the spec: `Realm::process_external_data_transfer` runs all
transfer edges tagged `external`; modelled as one execution tick. -/
def process_external_data_transfer (s : TransferState) : TransferState :=
  { s with externalCount := s.externalCount + 1 }

/-- Modelled from the spec: `Realm::process_io_transfer` runs all transfer
edges tagged `io` at output times; modelled as one execution tick. -/
def process_io_transfer (s : TransferState) : TransferState :=
  { s with ioCount := s.ioCount + 1 }

/-- Modelled from the spec: `Realm::post_converged_work`, the end-of-time-step
converged work, invokes the multi-physics and external-data transfers. -/
def post_converged_work (s : TransferState) : TransferState :=
  process_external_data_transfer (process_multi_physics_transfer s)

/-- Modelled from the spec: a simulation run with `nSteps` time steps —
initialization transfers execute at setup, then each time step ends with
`post_converged_work`. -/
def run_simulation : Nat → TransferState
  | 0 => process_initialization_transfer initialTransferState
  | n + 1 => post_converged_work (run_simulation n)

/-- C6: in every simulation run, `initialization` transfers execute exactly
once (at setup) regardless of the number of time steps, while `multiPhysics`
transfers execute exactly once per time step. -/
theorem transfer_schedule_counts (n : Nat) :
    (run_simulation n).initializationCount = 1 ∧
    (run_simulation n).multiPhysicsCount = n := by
  induction n with
  | zero => exact ⟨rfl, rfl⟩
  | succ m ih =>
    refine ⟨?_, ?_⟩
    · show (run_simulation m).initializationCount = 1
      exact ih.1
    · show (run_simulation m).multiPhysicsCount + 1 = m + 1
      rw [ih.2]

/-! ## Mesh-info cache accessor (`Realm::mesh_info`, Realm.h:371-379) -/

/-- The cached derived structure; modelled by the mesh synchronization count
it was built at (`new NgpMeshInfo(*bulkData_)` captures the current mesh). -/
structure NgpMeshInfo where
  builtAt : Nat
deriving DecidableEq

/-- The cache-relevant state of a `Realm`: the stored stamp `meshModCount_`
and the optional cached structure `meshInfo_`. -/
structure RealmMeshCache where
  meshModCount : Nat
  meshInfo : Option NgpMeshInfo
deriving DecidableEq

/-- `Realm::mesh_info` embedded from the source (Realm.h:371-379): if the
stored stamp differs from `bulkData_->synchronized_count()` (here the input
`syncCount`) or no cached value exists, store the new stamp and rebuild the
cached structure, then return the cached value.  Returns the value and the
updated realm cache state. -/
def mesh_info (syncCount : Nat) (s : RealmMeshCache) :
    NgpMeshInfo × RealmMeshCache :=
  if s.meshModCount ≠ syncCount ∨ s.meshInfo = none then
    (⟨syncCount⟩, { meshModCount := syncCount, meshInfo := some ⟨syncCount⟩ })
  else
    (s.meshInfo.getD ⟨s.meshModCount⟩, s)

/-- The cache invariant: any cached value was built at the stored stamp. -/
def MeshCacheWF (s : RealmMeshCache) : Prop :=
  s.meshInfo = none ∨ s.meshInfo = some ⟨s.meshModCount⟩

/-- C7: the accessor maintains the cache-with-generation-stamp invariant.
Starting from a well-formed cache: after every call the stored stamp equals
the current modification counter, the stored cache holds exactly the
returned value, the returned value is the one built at the current counter
(never stale), well-formedness is preserved, the state is left unchanged iff
the stamp matched and a cached value existed (i.e. it rebuilds exactly when
the counter differs or no cached value exists), and when no rebuild happens
the cached value itself is returned. -/
theorem mesh_info_cache_correct (syncCount : Nat) (s : RealmMeshCache)
    (hwf : MeshCacheWF s) :
    ((mesh_info syncCount s).2.meshModCount = syncCount ∧
     (mesh_info syncCount s).2.meshInfo = some (mesh_info syncCount s).1 ∧
     (mesh_info syncCount s).1.builtAt = syncCount ∧
     MeshCacheWF (mesh_info syncCount s).2) ∧
    ((mesh_info syncCount s).2 = s ↔
      (s.meshModCount = syncCount ∧ s.meshInfo ≠ none)) ∧
    (∀ v, s.meshInfo = some v → s.meshModCount = syncCount →
      (mesh_info syncCount s).1 = v) := by
  by_cases h : s.meshModCount ≠ syncCount ∨ s.meshInfo = none
  · have hmi : mesh_info syncCount s =
        (⟨syncCount⟩, ⟨syncCount, some ⟨syncCount⟩⟩) := by
      unfold mesh_info
      rw [if_pos h]
    rw [hmi]
    refine ⟨⟨rfl, rfl, rfl, Or.inr rfl⟩, ?_, ?_⟩
    · constructor
      · intro heq
        rcases h with h1 | h2
        · rw [← heq] at h1
          exact absurd rfl h1
        · rw [← heq] at h2
          exact Option.noConfusion h2
      · rintro ⟨h1, h2⟩
        rcases h with h1' | h2'
        · exact absurd h1 h1'
        · exact absurd h2' h2
    · intro v hv hcount
      rcases h with h1 | h2
      · exact absurd hcount h1
      · rw [hv] at h2
        exact Option.noConfusion h2
  · have h' : ¬s.meshModCount ≠ syncCount ∧ ¬s.meshInfo = none := by
      constructor
      · intro hc; exact h (Or.inl hc)
      · intro hc; exact h (Or.inr hc)
    have h1 : s.meshModCount = syncCount := not_not.mp h'.1
    have h2 : s.meshInfo ≠ none := h'.2
    rcases hwf with hnone | hsome
    · exact absurd hnone h2
    · have hmi : mesh_info syncCount s = (⟨s.meshModCount⟩, s) := by
        unfold mesh_info
        rw [if_neg h, hsome]
        rfl
      rw [hmi]
      refine ⟨⟨h1, hsome, h1, Or.inr hsome⟩, ?_, ?_⟩
      · exact iff_of_true rfl ⟨h1, h2⟩
      · intro v hv _
        rw [hsome] at hv
        exact Option.some.inj hv

/-- Witness for C7: stale cache (stamp 5, value built at 5) observed at
counter 7 — the accessor rebuilds and every postcondition holds. -/
theorem mesh_info_cache_correct_witness :
    ((mesh_info 7 ⟨5, some ⟨5⟩⟩).2.meshModCount = 7 ∧
     (mesh_info 7 ⟨5, some ⟨5⟩⟩).2.meshInfo =
       some (mesh_info 7 ⟨5, some ⟨5⟩⟩).1 ∧
     (mesh_info 7 ⟨5, some ⟨5⟩⟩).1.builtAt = 7 ∧
     MeshCacheWF (mesh_info 7 ⟨5, some ⟨5⟩⟩).2) ∧
    ((mesh_info 7 ⟨5, some ⟨5⟩⟩).2 = ⟨5, some ⟨5⟩⟩ ↔
      ((5 : Nat) = 7 ∧ (⟨5, some ⟨5⟩⟩ : RealmMeshCache).meshInfo ≠ none)) ∧
    (∀ v, (⟨5, some ⟨5⟩⟩ : RealmMeshCache).meshInfo = some v →
      (5 : Nat) = 7 → (mesh_info 7 ⟨5, some ⟨5⟩⟩).1 = v) :=
  mesh_info_cache_correct 7 ⟨5, some ⟨5⟩⟩ (Or.inr rfl)

/-! ## Boundary-condition registration (`Realm::register_abltop_bc`,
Realm.h:211-215) -/

/-- The registration-relevant realm state: the side sets registered with
boundary conditions (`Realm::bcPartVec_`), as (part, topology) handles. -/
structure RealmBCState where
  bcPartVec : List (Nat × Nat)
deriving DecidableEq

/-- Modelled from the spec: the body of `Realm::register_symmetry_bc` is not
in the header; per the spec, boundary-condition registration records the
side set (part, topology) among the realm's registered BC parts. -/
def register_symmetry_bc (part topo : Nat) (s : RealmBCState) :
    RealmBCState :=
  { s with bcPartVec := s.bcPartVec ++ [(part, topo)] }

/-- `Realm::register_abltop_bc` embedded from the source (Realm.h:211-215):
its entire body is the call `register_symmetry_bc(part, theTopo)`. -/
def register_abltop_bc (part topo : Nat) (s : RealmBCState) :
    RealmBCState :=
  register_symmetry_bc part topo s

/-- C10: for every part, topology and realm state, registering an ABL-top
boundary condition produces exactly the realm state produced by registering
a symmetry boundary condition. -/
theorem abltop_eq_symmetry (part topo : Nat) (s : RealmBCState) :
    register_abltop_bc part topo s = register_symmetry_bc part topo s := rfl

end NaluWind
